import Mathlib

/-!
Verification of the EDI 810 comparison front end (`frontend/js/app.js`).

The file embeds the browser-side rendering and filtering logic as pure Lean
functions operating on the comparison-result data model, and proves the
stated properties about them.  JavaScript strings become `String`, arrays
become `List`, plain objects used as string maps become association lists,
and DOM class state becomes an explicit finite map.
-/

/-- The four route identifiers of the single-page router (`routes` array). -/
def routes : List String := ["home", "simulate", "summary", "view"]

/-- DOM visibility model: for each element id, `none` means the element does
not exist, `some h` means it exists and `h` tells whether it carries the
`hidden` class. -/
def Dom : Type := String → Option Bool

/-- One step of the `routes.forEach` loop in `showRoute`: if the element for
route `r` exists, add the `hidden` class to it, otherwise leave the DOM
unchanged. -/
def hideRoute (dom : Dom) (r : String) : Dom :=
  match dom r with
  | some _ => fun x => if x = r then some true else dom x
  | none => dom

/-- `showRoute(id)`: hide every route element that exists, then remove the
`hidden` class from the element with the requested id when it exists. -/
def showRoute (id : String) (dom : Dom) : Dom :=
  let dom1 := routes.foldl hideRoute dom
  match dom1 id with
  | some _ => fun x => if x = id then some false else dom1 x
  | none => dom1

/-- One entry of `result.detailed_fields` as consumed by the UI: all display
columns are strings, presence is the boolean flag the code tests with
`=== true` / `=== false`. -/
structure DetailedField where
  field_name : String
  name : String
  status : String
  cardinality : String
  type : String
  length : String
  usage : String
  color : String
  length_error : String
  present_in_edi : Bool
deriving DecidableEq

/-- One entry of `result.segment_summary`. -/
structure SegmentSummary where
  segment_tag : String
  x12_requirement : String
  company_usage : String
  min_usage : String
  max_usage : String
  present_in_edi : String
  status : String
deriving DecidableEq

/-- `result.key_fields`: a plain object mapping a segment tag to an object of
field-code/value pairs, modelled as an association list that keeps the
object's key order. -/
def KeyFields : Type := List (String × List (String × String))

/-- The comparison result object produced by the compare endpoint, restricted
to the parts the rendering code reads. -/
structure ComparisonResult where
  is_810 : Bool
  detailed_fields : List DetailedField
  segment_summary : List SegmentSummary
  key_fields : KeyFields
  executive_summary : String

/-- JavaScript `Array.prototype.join(sep)`: empty string on the empty array,
the sole element on a singleton, and elements interleaved with the separator
otherwise. -/
def arrayJoin (sep : String) : List String → String
  | [] => ""
  | [a] => a
  | a :: b :: rest => a ++ sep ++ arrayJoin sep (b :: rest)

/-- Concatenation of a list of strings (used to state join-shape lemmas). -/
def concatAll : List String → String
  | [] => ""
  | s :: rest => s ++ concatAll rest

/-- `listStartsWith p l` is true when `p` is an initial run of `l`. -/
def listStartsWith : List Char → List Char → Bool
  | [], _ => true
  | _ :: _, [] => false
  | p :: ps, c :: cs => p == c && listStartsWith ps cs

/-- JavaScript `String.prototype.includes`: `q` occurs contiguously in `s`. -/
def containsSeq (q : List Char) : List Char → Bool
  | [] => q.isEmpty
  | c :: cs => listStartsWith q (c :: cs) || containsSeq q cs

/-- `s.includes(q)` for strings. -/
def jsIncludes (s q : String) : Bool := containsSeq q.data s.data

/-- The row class chosen in `createSegmentTable` for one segment-summary
entry: mandatory/optional crossed with present/missing, where presence is
the literal string comparison `present_in_edi === 'Yes'`. -/
def segmentRowClass (segment : SegmentSummary) : String :=
  if segment.x12_requirement == "mandatory" then
    if segment.present_in_edi == "Yes" then "segment-mandatory-present"
    else "segment-mandatory-missing"
  else
    if segment.present_in_edi == "Yes" then "segment-optional-present"
    else "segment-optional-missing"

/-- The status badge of a segment row: green when the status text contains
`Present`, red otherwise. -/
def segmentStatusBadge (segment : SegmentSummary) : String :=
  if jsIncludes segment.status "Present" then
    "<span style=\"color:#22c55e;font-weight:bold;\">" ++ segment.status ++ "</span>"
  else
    "<span style=\"color:#ef4444;font-weight:bold;\">" ++ segment.status ++ "</span>"

/-- One `<tr>` of the segment-summary table. -/
def segmentRow (segment : SegmentSummary) : String :=
  "<tr class=\"" ++ segmentRowClass segment ++ "\"><td><strong>" ++ segment.segment_tag
    ++ "</strong></td><td>" ++ segment.x12_requirement
    ++ "</td><td>" ++ segment.company_usage
    ++ "</td><td>" ++ segment.min_usage
    ++ "</td><td>" ++ segment.max_usage
    ++ "</td><td>" ++ segment.present_in_edi
    ++ "</td><td>" ++ segmentStatusBadge segment ++ "</td></tr>"

/-- `createSegmentTable`: placeholder pill on an empty list, otherwise the
table with one row per segment in order (`rows.join('')`). -/
def createSegmentTable (segments : List SegmentSummary) : String :=
  if segments.isEmpty then "<p class=\"pill\">No segments found</p>"
  else
    "<table class=\"table segment-table\"><thead><tr><th>SEGMENT TAG</th><th>X12 REQUIREMENT</th><th>COMPANY USAGE</th><th>MIN USAGE</th><th>MAX USAGE</th><th>PRESENT IN EDI</th><th>STATUS</th></tr></thead><tbody>"
      ++ arrayJoin "" (segments.map segmentRow) ++ "</tbody></table>"

/-- The green "valid" verdict pill of `renderSummary` / `activateFilters`. -/
def validPill : String :=
  "<div class=\"pill\" style=\"background:#22c55e;color:white;\">✓ Valid EDI 810</div>"

/-- The red "invalid" verdict pill of `renderSummary` / `activateFilters`. -/
def invalidPill : String :=
  "<div class=\"pill\" style=\"background:#ef4444;color:white;\">✗ Invalid EDI 810</div>"

/-- The verdict pill displayed for a result: `result.is_810 ? valid : invalid`. -/
def verdictPill (is810 : Bool) : String :=
  if is810 then validPill else invalidPill

/-- The per-field statuses produced by the field validator. -/
inductive FieldStatus where
  | MandatoryPresentValid
  | MandatoryPresentLengthError
  | MandatoryMissing
  | OptionalPresentValid
  | OptionalPresentLengthError
  | OptionalMissing
deriving DecidableEq

/-- A field result as seen by the report builder: its derived status and the
cardinality text of its rule. -/
structure RuleFieldResult where
  status : FieldStatus
  cardinality : String

/-- Modelled from the spec: the report builder that computes the overall
validity flag is part of the backend, which is not in this repository
snapshot; per the specification, `is_810` is the conjunction of ST01 being
"810", no field being `MandatoryMissing`, no `MandatoryPresentLengthError`
on a field whose rule cardinality is exactly "1/1", and no segment being
classified `segment-mandatory-missing`. -/
def computeIs810 (st01 : String) (fields : List RuleFieldResult)
    (segments : List SegmentSummary) : Bool :=
  (st01 == "810")
    && !(fields.any fun f => decide (f.status = FieldStatus.MandatoryMissing))
    && !(fields.any fun f =>
          decide (f.status = FieldStatus.MandatoryPresentLengthError) && (f.cardinality == "1/1"))
    && !(segments.any fun s => segmentRowClass s == "segment-mandatory-missing")

/-- Claim C2: a segment-summary row is classified `segment-mandatory-present`
iff its X12 requirement is `mandatory` and `present_in_edi` is `Yes`;
`segment-mandatory-missing` iff mandatory and not `Yes`; and the analogous
optional classes when the requirement is not `mandatory`. -/
theorem segment_row_classification (segment : SegmentSummary) :
    (segmentRowClass segment = "segment-mandatory-present" ↔
      (segment.x12_requirement = "mandatory" ∧ segment.present_in_edi = "Yes"))
    ∧ (segmentRowClass segment = "segment-mandatory-missing" ↔
      (segment.x12_requirement = "mandatory" ∧ segment.present_in_edi ≠ "Yes"))
    ∧ (segmentRowClass segment = "segment-optional-present" ↔
      (segment.x12_requirement ≠ "mandatory" ∧ segment.present_in_edi = "Yes"))
    ∧ (segmentRowClass segment = "segment-optional-missing" ↔
      (segment.x12_requirement ≠ "mandatory" ∧ segment.present_in_edi ≠ "Yes")) := by
  by_cases hm : segment.x12_requirement = "mandatory" <;>
    by_cases hp : segment.present_in_edi = "Yes" <;>
      simp [segmentRowClass, hm, hp]

/-- Witness for C2: a concrete mandatory segment present in the EDI is
classified `segment-mandatory-present`. -/
theorem segment_row_classification_witness :
    segmentRowClass ⟨"BIG", "mandatory", "Must use", "1", "1", "Yes", "Present"⟩ =
      "segment-mandatory-present" :=
  (segment_row_classification
    ⟨"BIG", "mandatory", "Must use", "1", "1", "Yes", "Present"⟩).1.mpr ⟨rfl, rfl⟩

/-- Claim C1: the verdict pill is the "Valid EDI 810" pill exactly when the
overall flag holds, i.e. exactly when ST01 is "810", no field is
`MandatoryMissing`, no field with rule cardinality "1/1" is
`MandatoryPresentLengthError`, and no segment row is classified
`segment-mandatory-missing`; and the pill is always one of the two verdict
pills, so every other result shows the "Invalid EDI 810" pill. -/
theorem verdict_pill_iff_is810 (st01 : String) (fields : List RuleFieldResult)
    (segments : List SegmentSummary) :
    (verdictPill (computeIs810 st01 fields segments) = validPill ↔
      (st01 = "810"
        ∧ (∀ f ∈ fields, f.status ≠ FieldStatus.MandatoryMissing)
        ∧ (∀ f ∈ fields,
            ¬(f.status = FieldStatus.MandatoryPresentLengthError ∧ f.cardinality = "1/1"))
        ∧ (∀ s ∈ segments, segmentRowClass s ≠ "segment-mandatory-missing")))
    ∧ (verdictPill (computeIs810 st01 fields segments) = validPill
        ∨ verdictPill (computeIs810 st01 fields segments) = invalidPill) := by
  have hne : validPill ≠ invalidPill := by decide
  have hkey : computeIs810 st01 fields segments = true ↔
      (st01 = "810"
        ∧ (∀ f ∈ fields, f.status ≠ FieldStatus.MandatoryMissing)
        ∧ (∀ f ∈ fields,
            ¬(f.status = FieldStatus.MandatoryPresentLengthError ∧ f.cardinality = "1/1"))
        ∧ (∀ s ∈ segments, segmentRowClass s ≠ "segment-mandatory-missing")) := by
    simp [computeIs810, List.any_eq_true, not_and, and_assoc]
  constructor
  · rw [← hkey]
    cases h : computeIs810 st01 fields segments
    · simp [verdictPill, Ne.symm hne]
    · simp [verdictPill]
  · cases h : computeIs810 st01 fields segments <;> simp [verdictPill]

/-- Witness for C1: with ST01 = "810", no fields and no segments, the valid
pill is shown. -/
theorem verdict_pill_iff_is810_witness :
    verdictPill (computeIs810 "810" [] []) = validPill :=
  (verdict_pill_iff_is810 "810" [] []).1.mpr
    ⟨rfl, by simp, by simp, by simp⟩

/-- `s.replaceAll('"', '""')` on the character list: every double-quote
character is doubled. -/
def doubleQuotes : List Char → List Char
  | [] => []
  | c :: cs => if c = '"' then '"' :: '"' :: doubleQuotes cs else c :: doubleQuotes cs

/-- The regex test `/[",\n]/.test(s)` of `safeCsv`: does the string contain a
double quote, a comma, or a newline? -/
def hasSpecialChar (s : String) : Bool :=
  s.data.any fun c => c == ',' || c == '"' || c == '\n'

/-- `safeCsv(v)`: `null`/`undefined` become the empty string; otherwise every
double quote of the value is doubled, and the result is wrapped in double
quotes when the value contains a comma, double quote, or newline. -/
def safeCsv : Option String → String
  | none => ""
  | some s =>
    let escaped := String.mk (doubleQuotes s.data)
    if hasSpecialChar s then "\"" ++ escaped ++ "\"" else escaped

/-- Collapse every doubled double-quote back into a single one. -/
def unescapePairs : List Char → List Char
  | [] => []
  | [c] => [c]
  | c :: d :: cs =>
    if c = '"' ∧ d = '"' then '"' :: unescapePairs cs
    else c :: unescapePairs (d :: cs)

/-- Standard CSV cell unescaping: a cell wrapped in double quotes is unwrapped
and its doubled quotes collapsed; any other cell denotes itself. -/
def csvUnescape (cell : String) : String :=
  match cell.data with
  | '"' :: rest =>
    if rest.getLast? = some '"' then String.mk (unescapePairs rest.dropLast) else cell
  | _ => cell

/-- Number of double-quote characters in a character list. -/
def countQuotes : List Char → Nat
  | [] => 0
  | c :: cs => (if c = '"' then 1 else 0) + countQuotes cs

theorem countQuotes_append (a b : List Char) :
    countQuotes (a ++ b) = countQuotes a + countQuotes b := by
  induction a with
  | nil => simp [countQuotes]
  | cons c cs ih => simp [countQuotes, ih]; omega

theorem countQuotes_doubleQuotes (l : List Char) :
    countQuotes (doubleQuotes l) = 2 * countQuotes l := by
  induction l with
  | nil => simp [doubleQuotes, countQuotes]
  | cons c cs ih =>
    by_cases h : c = '"' <;> simp [doubleQuotes, countQuotes, h, ih] <;> omega

theorem unescapePairs_cons_of_ne {c : Char} (h : c ≠ '"') (l : List Char) :
    unescapePairs (c :: l) = c :: unescapePairs l := by
  cases l with
  | nil => rfl
  | cons d ds => simp [unescapePairs, h]

theorem unescapePairs_doubleQuotes (l : List Char) :
    unescapePairs (doubleQuotes l) = l := by
  induction l with
  | nil => rfl
  | cons c cs ih =>
    by_cases h : c = '"'
    · subst h
      simp [doubleQuotes, unescapePairs, ih]
    · rw [doubleQuotes, if_neg h, unescapePairs_cons_of_ne h, ih]

theorem doubleQuotes_of_no_quote {l : List Char} (h : ∀ c ∈ l, c ≠ '"') :
    doubleQuotes l = l := by
  induction l with
  | nil => rfl
  | cons c cs ih =>
    rw [doubleQuotes, if_neg (h c (by simp))]
    rw [ih fun x hx => h x (by simp [hx])]

theorem no_quote_of_not_special {s : String} (h : hasSpecialChar s = false) :
    ∀ c ∈ s.data, c ≠ '"' := by
  intro c hc habs
  subst habs
  have := (List.any_eq_false).mp h '"' hc
  simp at this

theorem countQuotes_eq_zero {l : List Char} (h : ∀ c ∈ l, c ≠ '"') :
    countQuotes l = 0 := by
  induction l with
  | nil => rfl
  | cons c cs ih =>
    rw [countQuotes, if_neg (h c (by simp)), ih fun x hx => h x (by simp [hx])]

theorem safeCsv_of_not_special {s : String} (h : hasSpecialChar s = false) :
    safeCsv (some s) = s := by
  have hq := no_quote_of_not_special h
  simp only [safeCsv, h, Bool.false_eq_true, if_false]
  rw [doubleQuotes_of_no_quote hq]

theorem safeCsv_data_of_special {s : String} (h : hasSpecialChar s = true) :
    (safeCsv (some s)).data = '"' :: (doubleQuotes s.data ++ ['"']) := by
  simp only [safeCsv, h, if_true]
  rw [String.data_append, String.data_append]
  rfl

/-- Claim C8: `safeCsv` maps a missing value to the empty string; it doubles
exactly the double-quote characters (quote count doubles, plus the two
wrapping quotes when the value is special); the output starts with a double
quote exactly when the value contains a comma, double quote, or newline (the
wrapping case); and every cell round-trips to the original value under
standard CSV unescaping. -/
theorem safeCsv_spec :
    safeCsv none = ""
    ∧ (∀ s : String, countQuotes (safeCsv (some s)).data =
        2 * countQuotes s.data + (if hasSpecialChar s then 2 else 0))
    ∧ (∀ s : String, (safeCsv (some s)).data.head? = some '"' ↔ hasSpecialChar s = true)
    ∧ (∀ s : String, csvUnescape (safeCsv (some s)) = s) := by
  refine ⟨rfl, ?_, ?_, ?_⟩
  · intro s
    cases h : hasSpecialChar s
    · rw [safeCsv_of_not_special h]
      have h0 := countQuotes_eq_zero (no_quote_of_not_special h)
      simp [h0]
    · rw [safeCsv_data_of_special h]
      simp [countQuotes, countQuotes_append, countQuotes_doubleQuotes]
      omega
  · intro s
    cases h : hasSpecialChar s
    · rw [safeCsv_of_not_special h]
      simp only [Bool.false_eq_true, iff_false]
      intro habs
      cases hd : s.data with
      | nil => rw [hd] at habs; simp at habs
      | cons c cs =>
        rw [hd] at habs
        simp at habs
        exact no_quote_of_not_special h c (by rw [hd]; simp) habs
    · rw [safeCsv_data_of_special h]
      simp
  · intro s
    cases h : hasSpecialChar s
    · rw [safeCsv_of_not_special h]
      rw [csvUnescape]
      cases hd : s.data with
      | nil => rfl
      | cons c cs =>
        have hc : c ≠ '"' := no_quote_of_not_special h c (by rw [hd]; simp)
        split
        · rename_i rest heq
          injection heq with h1 h2
          exact absurd h1 hc
        · rfl
    · have hdata := safeCsv_data_of_special h
      rw [csvUnescape, hdata]
      simp [List.getLast?_concat, List.dropLast_concat, unescapePairs_doubleQuotes]

/-- Witness for C8: the cell/value `a,"b` is quoted, its quote doubled, and it
round-trips through standard CSV unescaping. -/
theorem safeCsv_spec_witness : csvUnescape (safeCsv (some "a,\"b")) = "a,\"b" :=
  safeCsv_spec.2.2.2 "a,\"b"

/-- The CSV header cells of the download handler. -/
def csvHeaderCells : List String :=
  ["Field Code", "Field Name", "Status", "Cardinality", "Type", "Length", "In EDI", "Usage"]

/-- One CSV data row: the eight `safeCsv`-escaped cells of a field, joined
with commas; the `In EDI` cell is `Present`/`Missing` by the presence flag. -/
def csvRow (f : DetailedField) : String :=
  arrayJoin ","
    [safeCsv (some f.field_name), safeCsv (some f.name), safeCsv (some f.status),
      safeCsv (some f.cardinality), safeCsv (some f.type), safeCsv (some f.length),
      safeCsv (some (if f.present_in_edi then "Present" else "Missing")),
      safeCsv (some f.usage)]

/-- The CSV document built by the download handler: the joined header cells,
then one row per field, all joined with newlines. -/
def csvExport (fields : List DetailedField) : String :=
  arrayJoin "\n" (arrayJoin "," csvHeaderCells :: fields.map csvRow)

theorem arrayJoin_cons (sep a : String) (l : List String) :
    arrayJoin sep (a :: l) = a ++ concatAll (l.map fun x => sep ++ x) := by
  induction l generalizing a with
  | nil => simp [arrayJoin, concatAll]
  | cons b t ih =>
    rw [arrayJoin, ih b, List.map_cons, concatAll]
    simp [String.append_assoc]

/-- Claim C3: the CSV export is the exact header line
`Field Code,Field Name,Status,Cardinality,Type,Length,In EDI,Usage` followed
by one newline-prefixed row per entry of `detailed_fields` in order, and each
row is the comma join of the escaped cells, with the first cell carrying
`field_name` and the `In EDI` cell reading `Present` exactly when
`present_in_edi` is true and `Missing` otherwise. -/
theorem csv_export_shape (fields : List DetailedField) :
    csvExport fields =
      "Field Code,Field Name,Status,Cardinality,Type,Length,In EDI,Usage"
        ++ concatAll (fields.map fun f => "\n" ++ csvRow f)
    ∧ ∀ f : DetailedField, csvRow f =
        safeCsv (some f.field_name) ++ "," ++ safeCsv (some f.name) ++ ","
          ++ safeCsv (some f.status) ++ "," ++ safeCsv (some f.cardinality) ++ ","
          ++ safeCsv (some f.type) ++ "," ++ safeCsv (some f.length) ++ ","
          ++ (if f.present_in_edi then "Present" else "Missing") ++ ","
          ++ safeCsv (some f.usage) := by
  constructor
  · rw [csvExport, arrayJoin_cons, List.map_map]
    have hhead : arrayJoin "," csvHeaderCells =
        "Field Code,Field Name,Status,Cardinality,Type,Length,In EDI,Usage" := by decide
    rw [hhead]
    rfl
  · intro f
    have hp : safeCsv (some "Present") = "Present" := rfl
    have hm : safeCsv (some "Missing") = "Missing" := rfl
    have hmiss : ∀ u : String, "," ++ ("Missing," ++ u) = ",Missing," ++ u := by
      intro u; rw [← String.append_assoc]
      exact congrArg (fun x => x ++ u) (by decide)
    have hpres : ∀ u : String, "," ++ ("Present," ++ u) = ",Present," ++ u := by
      intro u; rw [← String.append_assoc]
      exact congrArg (fun x => x ++ u) (by decide)
    cases hpe : f.present_in_edi <;>
      simp [csvRow, arrayJoin, hpe, hp, hm, String.append_assoc, hmiss, hpres]

/-- Witness for C3: the export of the empty field list is exactly the header
line. -/
theorem csv_export_shape_witness :
    csvExport [] = "Field Code,Field Name,Status,Cardinality,Type,Length,In EDI,Usage" := by
  have h := (csv_export_shape []).1
  simpa [concatAll] using h

/-- `filterFields(type, searchQuery)` from `activateFilters`: start from a
copy of all fields, filter by the selected type button (`mandatory`,
`optional`, `present`, `missing`; any other non-`all` type falls through the
switch unchanged), then filter by the uppercased search query when it is
non-empty. -/
def filterFields (allFields : List DetailedField) (type searchQuery : String) :
    List DetailedField :=
  let filtered0 := allFields
  let filtered1 :=
    if type ≠ "all" then
      if type = "mandatory" then filtered0.filter fun f => f.status == "Mandatory"
      else if type = "optional" then filtered0.filter fun f => f.status == "Optional"
      else if type = "present" then filtered0.filter fun f => f.present_in_edi == true
      else if type = "missing" then filtered0.filter fun f => f.present_in_edi == false
      else filtered0
    else filtered0
  if searchQuery.length > 0 then
    filtered1.filter fun f =>
      jsIncludes f.field_name searchQuery.toUpper
        || jsIncludes f.name.toUpper searchQuery.toUpper
  else filtered1

/-- The browser-side store of the last comparison result
(`window.__comparison`). -/
structure UiState where
  comparison : ComparisonResult

/-- Evaluating the filter against the stored result: the stored state is
returned alongside the filtered projection, since the function only reads. -/
def filterFieldsRun (st : UiState) (type searchQuery : String) :
    UiState × List DetailedField :=
  (st, filterFields st.comparison.detailed_fields type searchQuery)

theorem filterFields_sublist (allFields : List DetailedField) (type searchQuery : String) :
    (filterFields allFields type searchQuery).Sublist allFields := by
  rw [filterFields]
  repeat' split
  all_goals
    first
      | exact List.Sublist.refl _
      | exact List.filter_sublist _
      | exact (List.filter_sublist _).trans (List.filter_sublist _)

/-- Claim C4: filtering/searching is read-only — running the filter returns
the stored comparison state unchanged, and every entry of the output is an
entry of the stored `detailed_fields` list (the output is a sublist, so no
entry is modified and none is fabricated). -/
theorem filter_fields_readonly (st : UiState) (type searchQuery : String) :
    (filterFieldsRun st type searchQuery).1 = st
    ∧ (filterFieldsRun st type searchQuery).2.Sublist st.comparison.detailed_fields := by
  exact ⟨rfl, filterFields_sublist _ _ _⟩

/-- Witness for C4: filtering an empty store is read-only. -/
theorem filter_fields_readonly_witness :
    (filterFieldsRun ⟨⟨true, [], [], [], ""⟩⟩ "mandatory" "BIG").1 = ⟨⟨true, [], [], [], ""⟩⟩ :=
  (filter_fields_readonly ⟨⟨true, [], [], [], ""⟩⟩ "mandatory" "BIG").1

/-- Claim C5: with an empty search query the filter buckets are exactly the
order-preserving filters of `detailed_fields`: `mandatory` keeps fields with
status `Mandatory`, `optional` those with status `Optional`, `missing` those
not present in the EDI, `present` those present, and `all` keeps everything. -/
theorem filter_fields_buckets (fields : List DetailedField) :
    filterFields fields "mandatory" "" = (fields.filter fun f => f.status == "Mandatory")
    ∧ filterFields fields "optional" "" = (fields.filter fun f => f.status == "Optional")
    ∧ filterFields fields "missing" "" = (fields.filter fun f => f.present_in_edi == false)
    ∧ filterFields fields "present" "" = (fields.filter fun f => f.present_in_edi == true)
    ∧ filterFields fields "all" "" = fields := by
  refine ⟨?_, ?_, ?_, ?_, ?_⟩ <;> simp [filterFields]

/-- Witness for C5: a concrete missing mandatory field lands in the
`mandatory` bucket. -/
theorem filter_fields_buckets_witness :
    filterFields [⟨"BIG02", "Invoice Number", "Mandatory", "1/1", "AN", "1/22", "", "red", "", false⟩]
        "mandatory" "" =
      [⟨"BIG02", "Invoice Number", "Mandatory", "1/1", "AN", "1/22", "", "red", "", false⟩] := by
  rw [(filter_fields_buckets _).1]
  rfl

/-- `s.replaceAll(t, r)` for a single-character pattern `t`: every occurrence
of the character is replaced by `r`, scanning left to right without
re-scanning replacements. -/
def replaceAllChar (t : Char) (r : List Char) : List Char → List Char
  | [] => []
  | c :: cs => (if c = t then r else [c]) ++ replaceAllChar t r cs

/-- `escapeHtml(str)`: replace `&` by `&amp;`, then `<` by `&lt;`, then `>`
by `&gt;`. -/
def escapeHtml (str : String) : String :=
  String.mk
    (replaceAllChar '>' "&gt;".data
      (replaceAllChar '<' "&lt;".data
        (replaceAllChar '&' "&amp;".data str.data)))

/-- Per-character view of the three replacement passes. -/
def escChar (c : Char) : List Char :=
  if c = '&' then "&amp;".data
  else if c = '<' then "&lt;".data
  else if c = '>' then "&gt;".data
  else [c]

/-- Flattened per-character escaping of a character list. -/
def escFlat : List Char → List Char
  | [] => []
  | c :: cs => escChar c ++ escFlat cs

theorem replaceAllChar_append (t : Char) (r a b : List Char) :
    replaceAllChar t r (a ++ b) = replaceAllChar t r a ++ replaceAllChar t r b := by
  induction a with
  | nil => rfl
  | cons c cs ih => simp [replaceAllChar, ih]

theorem escapeHtml_data (str : String) : (escapeHtml str).data = escFlat str.data := by
  show replaceAllChar '>' "&gt;".data
      (replaceAllChar '<' "&lt;".data
        (replaceAllChar '&' "&amp;".data str.data)) = escFlat str.data
  induction str.data with
  | nil => rfl
  | cons c cs ih =>
    rw [show replaceAllChar '&' "&amp;".data (c :: cs)
          = (if c = '&' then "&amp;".data else [c]) ++ replaceAllChar '&' "&amp;".data cs
        from rfl,
      replaceAllChar_append, replaceAllChar_append, ih, escFlat]
    by_cases h1 : c = '&'
    · subst h1; rfl
    · by_cases h2 : c = '<'
      · subst h2; rfl
      · by_cases h3 : c = '>'
        · subst h3; rfl
        · simp [replaceAllChar, escChar, h1, h2, h3]

/-- Checks that a character list contains no literal `<` or `>`. -/
def noAngle : List Char → Bool
  | [] => true
  | c :: cs => !(c == '<') && !(c == '>') && noAngle cs

/-- Checks that every `&` in a character list starts one of the entities
`&amp;`, `&lt;`, `&gt;`. -/
def ampEntityOk : List Char → Bool
  | [] => true
  | c :: cs =>
    (!(c == '&')
        || listStartsWith "amp;".data cs
        || listStartsWith "lt;".data cs
        || listStartsWith "gt;".data cs)
      && ampEntityOk cs

theorem noAngle_amp (l : List Char) : noAngle ('&' :: 'a' :: 'm' :: 'p' :: ';' :: l) = noAngle l := rfl

theorem noAngle_lt (l : List Char) : noAngle ('&' :: 'l' :: 't' :: ';' :: l) = noAngle l := rfl

theorem noAngle_gt (l : List Char) : noAngle ('&' :: 'g' :: 't' :: ';' :: l) = noAngle l := rfl

theorem noAngle_escFlat (l : List Char) : noAngle (escFlat l) = true := by
  induction l with
  | nil => rfl
  | cons c cs ih =>
    rw [escFlat]
    by_cases h1 : c = '&'
    · subst h1
      rw [show escChar '&' ++ escFlat cs = '&' :: 'a' :: 'm' :: 'p' :: ';' :: escFlat cs from rfl,
        noAngle_amp, ih]
    · by_cases h2 : c = '<'
      · subst h2
        rw [show escChar '<' ++ escFlat cs = '&' :: 'l' :: 't' :: ';' :: escFlat cs from rfl,
          noAngle_lt, ih]
      · by_cases h3 : c = '>'
        · subst h3
          rw [show escChar '>' ++ escFlat cs = '&' :: 'g' :: 't' :: ';' :: escFlat cs from rfl,
            noAngle_gt, ih]
        · rw [show escChar c ++ escFlat cs = [c] ++ escFlat cs by rw [escChar]; simp [h1, h2, h3]]
          rw [List.singleton_append, noAngle, ih]
          simp [h2, h3]

theorem ampEntityOk_amp (l : List Char) :
    ampEntityOk ('&' :: 'a' :: 'm' :: 'p' :: ';' :: l) = ampEntityOk l := by
  rw [ampEntityOk]
  simp [ampEntityOk, listStartsWith]

theorem ampEntityOk_lt (l : List Char) :
    ampEntityOk ('&' :: 'l' :: 't' :: ';' :: l) = ampEntityOk l := by
  rw [ampEntityOk]
  simp [ampEntityOk, listStartsWith]

theorem ampEntityOk_gt (l : List Char) :
    ampEntityOk ('&' :: 'g' :: 't' :: ';' :: l) = ampEntityOk l := by
  rw [ampEntityOk]
  simp [ampEntityOk, listStartsWith]

theorem ampEntityOk_escFlat (l : List Char) : ampEntityOk (escFlat l) = true := by
  induction l with
  | nil => rfl
  | cons c cs ih =>
    rw [escFlat]
    by_cases h1 : c = '&'
    · subst h1
      rw [show escChar '&' ++ escFlat cs = '&' :: 'a' :: 'm' :: 'p' :: ';' :: escFlat cs from rfl,
        ampEntityOk_amp, ih]
    · by_cases h2 : c = '<'
      · subst h2
        rw [show escChar '<' ++ escFlat cs = '&' :: 'l' :: 't' :: ';' :: escFlat cs from rfl,
          ampEntityOk_lt, ih]
      · by_cases h3 : c = '>'
        · subst h3
          rw [show escChar '>' ++ escFlat cs = '&' :: 'g' :: 't' :: ';' :: escFlat cs from rfl,
            ampEntityOk_gt, ih]
        · rw [show escChar c ++ escFlat cs = [c] ++ escFlat cs by rw [escChar]; simp [h1, h2, h3]]
          rw [List.singleton_append, ampEntityOk, ih]
          simp [h1]

/-- The fixed segment display order of the key-fields panel. -/
def segmentsOrder : List String :=
  ["GS", "ST", "BIG", "REF", "N1", "N2", "N3", "N4", "PER", "ITD", "DTM", "FOB", "CUR",
    "IT1", "PID"]

/-- The `labelMap` object of `createKeyFieldsPanel`. -/
def labelMap : List (String × String) :=
  [("GS", "GS - Functional Group Header"),
    ("ST", "ST - Transaction Set Header"),
    ("BIG", "BIG - Invoice Information"),
    ("REF", "REF - Reference Identification"),
    ("N1", "N1 - Name"),
    ("N2", "N2 - Additional Name Information"),
    ("N3", "N3 - Address Information"),
    ("N4", "N4 - Geographic Location"),
    ("PER", "PER - Administrative Contact"),
    ("ITD", "ITD - Terms of Sale"),
    ("DTM", "DTM - Date/Time Reference"),
    ("FOB", "FOB - Freight On Board"),
    ("CUR", "CUR - Currency"),
    ("IT1", "IT1 - Line Item"),
    ("PID", "PID - Product/Item Description")]

/-- `labelMap[seg] || seg`. -/
def labelOf (seg : String) : String :=
  ((labelMap.find? fun p => p.1 == seg).map Prod.snd).getD seg

/-- Property access `key[seg]` on the key-field mapping. -/
def lookupKey (key : KeyFields) (seg : String) : Option (List (String × String)) :=
  (key.find? fun p => p.1 == seg).map Prod.snd

/-- The filter `key[seg] && Object.keys(key[seg]).length > 0`. -/
def hasEntries (key : KeyFields) (seg : String) : Bool :=
  match lookupKey key seg with
  | some entries => !entries.isEmpty
  | none => false

/-- One `<tr>` of a key-fields card: the code cell carries the field code and
the value cell carries the `escapeHtml`-escaped value. -/
def keyFieldRow (k v : String) : String :=
  "<tr><td style=\"width:140px;\"><code>" ++ k ++ "</code></td><td>" ++ escapeHtml v
    ++ "</td></tr>"

/-- One card of the key-fields panel for segment `seg`. -/
def segCard (key : KeyFields) (seg : String) : String :=
  "<div class=\"card\"><h3>" ++ labelOf seg ++ "</h3><table class=\"table small\"><tbody>"
    ++ arrayJoin "" (((lookupKey key seg).getD []).map fun kv => keyFieldRow kv.1 kv.2)
    ++ "</tbody></table></div>"

/-- `createKeyFieldsPanel(key)`: empty string when the mapping is absent or
empty, otherwise the panel wrapper around one card per listed segment that
has at least one entry, in the fixed segment order. -/
def createKeyFieldsPanel (key : KeyFields) : String :=
  if key.isEmpty then ""
  else
    "<div class=\"key-fields\"><h3>Key Fields</h3><div class=\"card-grid\">"
      ++ arrayJoin "" ((segmentsOrder.filter (hasEntries key)).map (segCard key))
      ++ "</div></div>"

/-- Claim C9: `escapeHtml` output never contains a literal `<` or `>`, every
`&` in it starts one of the entities `&amp;`, `&lt;`, `&gt;`, and every
key-field value placed into a panel row goes through `escapeHtml`. -/
theorem escape_html_safe :
    (∀ s : String, noAngle (escapeHtml s).data = true)
    ∧ (∀ s : String, ampEntityOk (escapeHtml s).data = true)
    ∧ (∀ k v : String, keyFieldRow k v =
        "<tr><td style=\"width:140px;\"><code>" ++ k ++ "</code></td><td>" ++ escapeHtml v
          ++ "</td></tr>") := by
  refine ⟨?_, ?_, ?_⟩
  · intro s; rw [escapeHtml_data]; exact noAngle_escFlat s.data
  · intro s; rw [escapeHtml_data]; exact ampEntityOk_escFlat s.data
  · intro k v; rfl

/-- Witness for C9: the escape of `<b>&` contains no angle bracket and only
entity-starting ampersands. -/
theorem escape_html_safe_witness :
    noAngle (escapeHtml "<b>&").data = true ∧ ampEntityOk (escapeHtml "<b>&").data = true :=
  ⟨escape_html_safe.1 "<b>&", escape_html_safe.2.1 "<b>&"⟩

/-- Claim C6: the key-fields panel is the empty string on an absent/empty
mapping; otherwise it is the wrapper around the cards of exactly those
segments of the fixed order list that have at least one entry, in that fixed
order — the card segments form a sublist of `segmentsOrder` and each has a
non-empty entry list. -/
theorem key_fields_panel_cards (key : KeyFields) :
    (key = [] → createKeyFieldsPanel key = "")
    ∧ (key ≠ [] → createKeyFieldsPanel key =
        "<div class=\"key-fields\"><h3>Key Fields</h3><div class=\"card-grid\">"
          ++ arrayJoin "" ((segmentsOrder.filter (hasEntries key)).map (segCard key))
          ++ "</div></div>")
    ∧ (segmentsOrder.filter (hasEntries key)).Sublist segmentsOrder
    ∧ (∀ seg ∈ segmentsOrder.filter (hasEntries key),
        ∃ entries, lookupKey key seg = some entries ∧ entries ≠ []) := by
  refine ⟨?_, ?_, List.filter_sublist _, ?_⟩
  · intro h; subst h; rfl
  · intro h
    rw [createKeyFieldsPanel, if_neg (by simpa [List.isEmpty_iff] using h)]
  · intro seg hseg
    have hmem := (List.mem_filter.mp hseg).2
    rw [hasEntries] at hmem
    cases hlk : lookupKey key seg with
    | none => rw [hlk] at hmem; simp at hmem
    | some entries =>
      rw [hlk] at hmem
      cases entries with
      | nil => simp at hmem
      | cons e es => exact ⟨e :: es, rfl, by simp⟩

/-- Witness for C6: the empty mapping yields the empty panel, and a mapping
with one BIG entry yields the wrapper with exactly the BIG card. -/
theorem key_fields_panel_cards_witness :
    createKeyFieldsPanel [] = ""
    ∧ createKeyFieldsPanel [("BIG", [("BIG01", "20240101")])] =
        "<div class=\"key-fields\"><h3>Key Fields</h3><div class=\"card-grid\">"
          ++ arrayJoin ""
            ((segmentsOrder.filter (hasEntries [("BIG", [("BIG01", "20240101")])])).map
              (segCard [("BIG", [("BIG01", "20240101")])]))
          ++ "</div></div>" :=
  ⟨(key_fields_panel_cards []).1 rfl,
    (key_fields_panel_cards [("BIG", [("BIG01", "20240101")])]).2.1 (by simp)⟩

/-- One `<tr>` of the detailed field table: color class, field code with
optional length-error indicator, status badge with lowercased status class,
cardinality, type, length, presence badge, and the usage text truncated to
100 characters with an ellipsis. -/
def detailedRow (field : DetailedField) : String :=
  "<tr class=\"" ++ field.color ++ "\"><td><strong>" ++ field.field_name ++ "</strong>"
    ++ (if field.length_error.isEmpty then ""
        else "<br><span style=\"color:#dc2626;font-size:11px;\">⚠ " ++ field.length_error
          ++ "</span>")
    ++ "</td><td>" ++ field.name
    ++ "</td><td><span class=\"status-badge " ++ field.status.toLower ++ "\">" ++ field.status
    ++ "</span></td><td>" ++ field.cardinality
    ++ "</td><td>" ++ field.type
    ++ "</td><td>" ++ field.length
    ++ "</td><td><span class=\"presence-badge "
    ++ (if field.present_in_edi then "present" else "missing") ++ "\">"
    ++ (if field.present_in_edi then "Present" else "Missing")
    ++ "</span></td><td class=\"usage-text\">"
    ++ (if field.usage.length > 100 then field.usage.take 100 ++ "..." else field.usage)
    ++ "</td></tr>"

/-- `createDetailedTable`: placeholder pill on an empty list, otherwise the
table with one row per field in order (`rows.join('')`). -/
def createDetailedTable (fields : List DetailedField) : String :=
  if fields.isEmpty then "<p class=\"pill\">No fields found</p>"
  else
    "<table class=\"table\"><thead><tr><th>Field Code</th><th>Field Name</th><th>Status</th><th>Cardinality</th><th>Type</th><th>Length</th><th>In EDI</th><th>Usage</th></tr></thead><tbody>"
      ++ arrayJoin "" (fields.map detailedRow) ++ "</tbody></table>"

/-- Claim C7: rendering is deterministic — on equal comparison results the
segment table, the detailed table, the key-fields panel and the CSV export
are identical strings; the functions take no input besides the result, so
there is no hidden run-dependent state. -/
theorem rendering_deterministic (r1 r2 : ComparisonResult) (h : r1 = r2) :
    createSegmentTable r1.segment_summary = createSegmentTable r2.segment_summary
    ∧ createDetailedTable r1.detailed_fields = createDetailedTable r2.detailed_fields
    ∧ createKeyFieldsPanel r1.key_fields = createKeyFieldsPanel r2.key_fields
    ∧ csvExport r1.detailed_fields = csvExport r2.detailed_fields := by
  subst h
  exact ⟨rfl, rfl, rfl, rfl⟩

/-- Witness for C7: two runs on the same concrete empty result render the
same segment table. -/
theorem rendering_deterministic_witness :
    createSegmentTable (ComparisonResult.mk true [] [] [] "").segment_summary
      = createSegmentTable (ComparisonResult.mk true [] [] [] "").segment_summary :=
  (rendering_deterministic (ComparisonResult.mk true [] [] [] "")
    (ComparisonResult.mk true [] [] [] "") rfl).1

theorem hideRoute_apply (dom : Dom) (r x : String) :
    hideRoute dom r x = if (dom r).isSome ∧ x = r then some true else dom x := by
  rw [hideRoute]
  cases h : dom r <;> simp [h] <;> split <;> simp_all

theorem hideRoute_isSome (dom : Dom) (r x : String) :
    (hideRoute dom r x).isSome = (dom x).isSome := by
  rw [hideRoute_apply]
  split
  · rename_i hc
    rw [hc.2, hc.1]
    rfl
  · rfl

theorem foldl_hideRoute_isSome (l : List String) (dom : Dom) (x : String) :
    ((l.foldl hideRoute dom) x).isSome = (dom x).isSome := by
  induction l generalizing dom with
  | nil => rfl
  | cons r t ih => rw [List.foldl_cons, ih, hideRoute_isSome]

theorem foldl_hideRoute_not_mem (l : List String) (dom : Dom) (x : String)
    (hx : x ∉ l) : (l.foldl hideRoute dom) x = dom x := by
  induction l generalizing dom with
  | nil => rfl
  | cons r t ih =>
    rw [List.foldl_cons, ih _ (fun h => hx (by simp [h])), hideRoute_apply,
      if_neg fun hc => hx (by simp [hc.2])]

theorem foldl_hideRoute_mem (l : List String) (dom : Dom) (x : String)
    (hx : x ∈ l) (hsome : (dom x).isSome) : (l.foldl hideRoute dom) x = some true := by
  induction l generalizing dom with
  | nil => simp at hx
  | cons r t ih =>
    rw [List.foldl_cons]
    by_cases hxt : x ∈ t
    · exact ih _ hxt (by rw [hideRoute_isSome]; exact hsome)
    · have hxr : x = r := by
        rcases List.mem_cons.mp hx with h | h
        · exact h
        · exact absurd h hxt
      rw [foldl_hideRoute_not_mem t _ x hxt, hideRoute_apply,
        if_pos ⟨by rw [← hxr]; exact hsome, hxr⟩]

/-- Claim C10: after `showRoute(id)` for a route id in the route list, when
all four route elements exist, the element with that id is the only one
without the `hidden` class: it is shown and every other route element is
hidden, regardless of the prior visibility state. -/
theorem show_route_exclusive (dom : Dom) (id : String) (hid : id ∈ routes)
    (hex : ∀ r ∈ routes, (dom r).isSome) :
    showRoute id dom id = some false
    ∧ ∀ r ∈ routes, r ≠ id → showRoute id dom r = some true := by
  have h1 : (routes.foldl hideRoute dom) id = some true :=
    foldl_hideRoute_mem routes dom id hid (hex id hid)
  constructor
  · rw [showRoute, h1]
    simp
  · intro r hr hne
    rw [showRoute]
    cases hsc : (routes.foldl hideRoute dom) id with
    | none => rw [hsc] at h1; exact absurd h1 (by simp)
    | some b =>
      simp only
      rw [if_neg hne]
      exact foldl_hideRoute_mem routes dom r hr (hex r hr)

/-- Witness for C10: starting from all four routes visible, showing
`summary` leaves `summary` visible and hides `home`. -/
theorem show_route_exclusive_witness :
    showRoute "summary" (fun _ => some false) "summary" = some false
    ∧ showRoute "summary" (fun _ => some false) "home" = some true := by
  have h := show_route_exclusive (fun _ => some false) "summary" (by decide)
    (fun r _ => rfl)
  exact ⟨h.1, h.2 "home" (by decide) (by decide)⟩
